import Mathlib

set_option maxRecDepth 8192

/-!
Verification of the core logic of `kp-container` (`src/lib.rs`): Dockerfile
port extraction, registry-credential splitting, build-context archiving, and
the build-event consumption loop, shallowly embedded as executable Lean
functions.  Machine strings are modelled as `String` or `List Char`, byte
buffers as `List Nat` (each element a byte value), `u16` as `Nat` with the
explicit `65535` bound, and Rust panics (`unwrap`, out-of-bounds indexing)
as the `PanicOr.panic` constructor.
-/

/-- Outcome of a Rust computation that may panic (`unwrap`, slice indexing):
either an abort of the process or a value.  The panic message is not
modelled, only the fact of the abort. -/
inductive PanicOr (α : Type) where
  | panic
  | ok (val : α)
deriving DecidableEq, Repr

/-- True exactly on the `panic` outcome. -/
def PanicOr.isPanic {α : Type} : PanicOr α → Bool
  | .panic => true
  | .ok _ => false

/-- Models `dockerfile_parser::BreakableStringComponent`: only the
`String` (literal) variant is interpreted by the code; all other variants
(variable substitution, …) are collapsed into `varSub`.  Literal content is
modelled as a list of characters. -/
inductive BreakableStringComponent where
  | string (content : List Char)
  | varSub
deriving DecidableEq, Repr

/-- Models `dockerfile_parser::MiscInstruction`: the instruction keyword
(`misc.instruction.content`) and its argument components
(`misc.arguments.components`). -/
structure MiscInstruction where
  instruction : String
  components : List BreakableStringComponent
deriving DecidableEq, Repr

/-- Models `dockerfile_parser::Instruction`: the code matches only the
`Misc` variant; every other kind (FROM, RUN, COPY, …) falls into the
catch-all arm and is collapsed into `other`. -/
inductive Instruction where
  | misc (m : MiscInstruction)
  | other
deriving DecidableEq, Repr

/-- Models a stage from `dockerfile.iter_stages()`: the `parent` and `root`
fields of `dockerfile_parser::Stage` are only printed by the code, never
branched on, so they are not modelled. -/
structure Stage where
  index : Nat
  instructions : List Instruction
deriving DecidableEq, Repr

/-- Models a parsed `dockerfile_parser::Dockerfile` as its stage sequence. -/
structure Dockerfile where
  stages : List Stage
deriving DecidableEq, Repr

/-- Models Rust `str::trim` on a character list: whitespace stripped from
both ends. -/
def trimChars (l : List Char) : List Char :=
  ((l.dropWhile Char.isWhitespace).reverse.dropWhile Char.isWhitespace).reverse

/-- Models Rust `str::parse::<u16>`: an optional leading `+`, then one or
more decimal digits, value at most `65535`; anything else is a parse error
(`none`). -/
def parseU16 (s : List Char) : Option Nat :=
  let digits := match s with
    | '+' :: rest => rest
    | _ => s
  if digits = [] then none
  else if digits.all Char.isDigit then
    let v := digits.foldl (fun a ch => a * 10 + (ch.toNat - 48)) 0
    if v ≤ 65535 then some v else none
  else none

/-- Models the inner instruction loop of `get_port_from_dockerfile`
(src/lib.rs:69-85) for one stage, threading the mutable `port` variable:
a `Misc` instruction named `EXPOSE` reads its first argument component —
`get(0).unwrap()` panics when the component list is empty; a literal first
component is trimmed and parsed (`parse().unwrap()` panics on failure) and
the loop `break`s with the new port; a non-literal first component falls
into the `_ => {}` arm and scanning continues. -/
def scanInstructions (port : Nat) : List Instruction → PanicOr Nat
  | [] => .ok port
  | Instruction.misc m :: rest =>
    if m.instruction = "EXPOSE" then
      match m.components.head? with
      | none => .panic
      | some (BreakableStringComponent.string c) =>
        match parseU16 (trimChars c) with
        | none => .panic
        | some p => .ok p
      | some BreakableStringComponent.varSub => scanInstructions port rest
    else scanInstructions port rest
  | Instruction.other :: rest => scanInstructions port rest

/-- Models the outer stage loop of `get_port_from_dockerfile`
(src/lib.rs:63-86): the `break` in the inner loop only exits that stage's
instruction loop, so scanning continues with the next stage, carrying the
(possibly overwritten) `port` value forward. -/
def scanStages (port : Nat) : List Stage → PanicOr Nat
  | [] => .ok port
  | s :: rest =>
    match scanInstructions port s.instructions with
    | .panic => .panic
    | .ok p => scanStages p rest

/-- Models the body of `get_port_from_dockerfile` after parsing
(src/lib.rs:61-92): scan all stages starting from `port = 0`, then map a
final value of `0` to `None` and anything else to `Some(port)`. -/
def get_port_scan (doc : Dockerfile) : PanicOr (Option Nat) :=
  match scanStages 0 doc.stages with
  | .panic => .panic
  | .ok p => .ok (if p = 0 then none else some p)

/-- Models `get_port_from_dockerfile` (src/lib.rs:59-92).  The Dockerfile
parser is the external `dockerfile_parser` crate, passed here as the
function argument `parse`; the code calls `Dockerfile::parse(..).unwrap()`
(line 60), so a parse error aborts the process. -/
def get_port_from_dockerfile (parse : String → Except String Dockerfile)
    (text : String) : PanicOr (Option Nat) :=
  match parse text with
  | .error _ => .panic
  | .ok doc => get_port_scan doc

/-- Models Rust `str::split(sep)` on a character list: the separator is
removed and the (possibly empty) pieces between occurrences are returned;
an input with no separator yields the single piece `[l]`. -/
def splitOnChar (sep : Char) : List Char → List (List Char)
  | [] => [[]]
  | c :: rest =>
    if c = sep then [] :: splitOnChar sep rest
    else match splitOnChar sep rest with
      | s :: ss => (c :: s) :: ss
      | [] => [[c]]

/-- Models the credential-splitting core of `get_credential`
(src/lib.rs:53-57): the AWS ECR call, base64 decode and UTF-8 conversion
are external crates (each `unwrap`ped by the code), so the already-decoded
token `payload` is the input here.  The code collects
`payload.split(':')` into a vector and returns
`(parts[0].to_string(), parts[1].to_string())`; the index `parts[1]`
panics (out of bounds) when the payload contains no colon. -/
def get_credential (payload : List Char) : PanicOr (List Char × List Char) :=
  match splitOnChar ':' payload with
  | p0 :: p1 :: _ => .ok (p0, p1)
  | _ => .panic

/-- Models `bollard::image::BuilderVersion`. -/
inductive BuilderVersion where
  | builderV1
  | builderBuildKit
deriving DecidableEq, Repr

/-- Models `bollard::image::BuildImageOptions` restricted to the fields the
code sets; the remaining fields come from `Default::default()` and are not
read by anything modelled here. -/
structure BuildImageOptions where
  t : String
  dockerfile : String
  version : BuilderVersion
  pull : Bool
  session : Option String
deriving DecidableEq, Repr

/-- Models `build_options` (src/lib.rs:112-121). -/
def build_options (id : String) : BuildImageOptions :=
  { t := id
    dockerfile := "Dockerfile"
    version := BuilderVersion.builderBuildKit
    pull := true
    session := some id }

/-- Models `bollard::models::BuildInfoAux`: the code matches only the
`BuildKit` variant; its payload is modelled as a string, every other
variant is collapsed into `other`. -/
inductive BuildInfoAux where
  | buildKit (inner : String)
  | other
deriving DecidableEq, Repr

/-- Models `bollard::models::BuildInfo` restricted to the fields relevant
to the stream: `stream` carries a plain textual log line, `error` a
daemon-reported error, `aux` the builder-specific auxiliary payload.  The
code's `while let` pattern matches only on `aux`. -/
structure BuildInfo where
  stream : Option String
  error : Option String
  aux : Option BuildInfoAux
deriving DecidableEq, Repr

/-- Models the event loop of `build_image` (src/lib.rs:134-141): the
daemon's stream is a finite sequence of `Result<BuildInfo, _>` items and
`while let Some(Ok(BuildInfo { aux: Some(BuildInfoAux::BuildKit(inner)), .. }))`
consumes items as long as they match that pattern, surfacing each `inner`;
the first item that is an `Err`, lacks `aux`, or carries a non-BuildKit
`aux` ends the loop. -/
def build_image_events : List (Except String BuildInfo) → List String
  | [] => []
  | Except.ok info :: rest =>
    match info.aux with
    | some (BuildInfoAux.buildKit inner) => inner :: build_image_events rest
    | _ => []
  | Except.error _ :: _ => []

/-- True on stream items matching the `while let` pattern of `build_image`:
an `Ok` item whose `aux` is `Some(BuildInfoAux::BuildKit(_))`. -/
def isKit : Except String BuildInfo → Bool
  | Except.ok info =>
    match info.aux with
    | some (BuildInfoAux.buildKit _) => true
    | _ => false
  | Except.error _ => false

/-- The BuildKit payload of a stream item, when it has one. -/
def kitInner : Except String BuildInfo → Option String
  | Except.ok info =>
    match info.aux with
    | some (BuildInfoAux.buildKit inner) => some inner
    | _ => none
  | Except.error _ => none

/-- ASCII bytes of the entry name `Dockerfile`. -/
def dockerfileName : List Nat := [68, 111, 99, 107, 101, 114, 102, 105, 108, 101]

/-- Zero-padded fixed-width octal digits (ASCII), most significant first:
models the `octal_into` routine of the `tar` crate, which fills a numeric
header field from the right with the octal digits of the value, pads with
`'0'`, and leaves the final byte of the field as NUL. -/
def padOctal : Nat → Nat → List Nat
  | 0, _ => []
  | w + 1, n => (n / 8 ^ w % 8 + 48) :: padOctal w n

/-- Models the tar name field written by `header.set_path("Dockerfile")`:
the 100-byte field holding the entry name, NUL-padded. -/
def nameField : List Nat := dockerfileName ++ List.replicate 90 0

/-- Models the tar mode field written by `header.set_mode(0o755)`: seven
zero-padded octal digits and a trailing NUL. -/
def modeField : List Nat := padOctal 7 0o755 ++ [0]

/-- The first 124 header bytes: name, mode, and the untouched (all-zero)
uid and gid fields of the blank GNU header. -/
def pre124 : List Nat := nameField ++ modeField ++ List.replicate 8 0 ++ List.replicate 8 0

/-- Models the tar size field written by `header.set_size(len)`: eleven
zero-padded octal digits and a trailing NUL. -/
def sizeField (n : Nat) : List Nat := padOctal 11 n ++ [0]

/-- The modification-time field of the header: `Header::new_gnu()` creates
a blank (all-zero) header and the code never calls `set_mtime`, so the
12-byte field stays zero. -/
def mtimeField : List Nat := List.replicate 12 0

/-- Header bytes after the checksum field: zero typeflag, zero linkname,
the GNU magic/version bytes `ustar  \0` written by `Header::new_gnu()`,
and the remaining zero bytes up to offset 512. -/
def headerPost : List Nat :=
  [0] ++ List.replicate 100 0 ++ [117, 115, 116, 97, 114, 32, 32, 0] ++ List.replicate 247 0

/-- Models `calculate_cksum`: the sum of all 512 header bytes with the
8-byte checksum field counted as ASCII spaces (8 × 32 = 256). -/
def cksumVal (n : Nat) : Nat :=
  (pre124 ++ sizeField n ++ mtimeField).sum + 256 + headerPost.sum

/-- Models the checksum field written by `header.set_cksum()`: seven
zero-padded octal digits of the checksum and a trailing NUL. -/
def cksumField (n : Nat) : List Nat := padOctal 7 (cksumVal n) ++ [0]

/-- The full 512-byte tar header produced by `compress` for content length
`n` (src/lib.rs:95-99): blank GNU header, path `Dockerfile`, size `n`,
mode `0o755`, checksum. -/
def tarHeader (n : Nat) : List Nat :=
  pre124 ++ (sizeField n ++ (mtimeField ++ (cksumField n ++ headerPost)))

/-- Zero padding appended after the entry data to reach a 512-byte
boundary, as written by `tar::Builder::append`. -/
def padLen (n : Nat) : Nat := (512 - n % 512) % 512

/-- The uncompressed tar archive produced by `compress`
(src/lib.rs:95-103): header, entry data, zero padding to a 512-byte
boundary, then the two 512-byte zero blocks written when
`tar.into_inner()` finishes the archive. -/
def tarArchive (t : List Nat) : List Nat :=
  tarHeader t.length ++
    (t ++ (List.replicate (padLen t.length) 0 ++ List.replicate 1024 0))

/-- Models `compress` (src/lib.rs:94-110): the tar layer is modelled
byte-for-byte from the `tar` crate calls the code makes, while gzip
(`flate2::GzEncoder` at the default level) is an external deterministic
codec, taken as the function argument `gz` applied to the uncompressed
archive. -/
def compress (gz : List Nat → List Nat) (dockerfile : List Nat) : List Nat :=
  gz (tarArchive dockerfile)

/-- Models `build_image` (src/lib.rs:127-141): compress the Dockerfile
content, build the options from `id`, hand both to the daemon's
`build_image` endpoint (the external bollard client, taken as the function
argument `daemon` returning the event stream), and run the event loop. -/
def build_image (gz : List Nat → List Nat)
    (daemon : BuildImageOptions → List Nat → List (Except String BuildInfo))
    (id : String) (dockerfile_content : List Nat) : List String :=
  build_image_events (daemon (build_options id) (compress gz dockerfile_content))

/-- The instruction keyword of a trimmed Dockerfile line: the characters up
to the first whitespace. -/
def lineName (l : List Char) : List Char := l.takeWhile (fun c => !c.isWhitespace)

/-- The argument text of a trimmed Dockerfile line: everything after the
keyword, trimmed. -/
def lineArgs (l : List Char) : List Char :=
  trimChars (l.dropWhile (fun c => !c.isWhitespace))

/-- Modelled from the spec: the line-by-line core of the external
`dockerfile_parser::Dockerfile::parse` (not part of this repository), per
sections 3 and 4.1 of the specification.  The accumulator holds the stages
in reverse order, each stage's instructions in reverse order.  A `FROM`
line opens a new stage (the `FROM` instruction itself is an opaque non-Misc
instruction); every other instruction line becomes a `Misc` instruction
whose single literal-string argument component is the trimmed remainder of
the line (no component when there are no arguments); blank lines and `#`
comments are skipped; a keyword containing a non-alphabetic character is
malformed instruction syntax, and an instruction before the first `FROM`
is likewise a parse error. -/
def specParseAux : List (List Char) → List (List Instruction) →
    Except String (List (List Instruction))
  | [], acc => .ok (acc.reverse.map List.reverse)
  | line :: rest, acc =>
    let t := trimChars line
    if t = [] then specParseAux rest acc
    else if t.head? = some '#' then specParseAux rest acc
    else if !((lineName t).all Char.isAlpha) then .error "malformed instruction"
    else if String.mk (lineName t) = "FROM" then
      specParseAux rest ([Instruction.other] :: acc)
    else
      match acc with
      | [] => .error "instruction before first FROM"
      | cur :: others =>
        let comps := if lineArgs t = [] then []
          else [BreakableStringComponent.string (lineArgs t)]
        specParseAux rest
          ((Instruction.misc ⟨String.mk (lineName t), comps⟩ :: cur) :: others)

/-- Modelled from the spec: the external Dockerfile parser, splitting the
text into lines and folding them into stages with `specParseAux`, then
numbering the stages 0-based in document order. -/
def specParse (text : String) : Except String Dockerfile :=
  match specParseAux (splitOnChar '\n' text.toList) [] with
  | .error e => .error e
  | .ok stageLists => .ok ⟨stageLists.enum.map (fun p => ⟨p.1, p.2⟩)⟩

/-- One entry read back from a tar archive: its name bytes, the value of
its header size field, and its content bytes. -/
structure TarEntry where
  name : List Nat
  size : Nat
  content : List Nat
deriving DecidableEq, Repr

/-- Reads a numeric tar header field: the value of the eleven octal digits
before the terminating NUL. -/
def parseOctalField (l : List Nat) : Nat :=
  (l.take 11).foldl (fun a d => a * 8 + (d - 48)) 0

/-- Modelled from the spec: a standard tar reader used to state the
round-trip property of section 8 against the wire format of section 6 —
read each 512-byte header, take the NUL-terminated name from bytes 0-99
and the octal size from bytes 124-135, then the content and its zero
padding; a header block of all zero bytes ends the archive.  The fuel
argument bounds the recursion by the input length. -/
def readEntriesFuel : Nat → List Nat → Option (List TarEntry)
  | 0, _ => none
  | fuel + 1, input =>
    if input.length < 512 then none
    else
      let hdr := input.take 512
      if hdr.all (fun b => b == 0) then some []
      else
        let name := (hdr.take 100).takeWhile (fun b => b != 0)
        let size := parseOctalField (hdr.drop 124)
        let rest := input.drop 512
        if rest.length < size then none
        else
          match readEntriesFuel fuel (rest.drop (size + (512 - size % 512) % 512)) with
          | some es => some (⟨name, size, rest.take size⟩ :: es)
          | none => none

/-- Reads all entries of a tar archive, with the input length as fuel. -/
def readEntries (l : List Nat) : Option (List TarEntry) :=
  readEntriesFuel l.length l

/-- True on a `Misc` instruction named `EXPOSE`. -/
def isExposeIns : Instruction → Bool
  | Instruction.misc m => m.instruction == "EXPOSE"
  | Instruction.other => false

/-- No instruction in the list is an `EXPOSE` instruction. -/
def noExpose (l : List Instruction) : Prop := ∀ i ∈ l, isExposeIns i = false

instance (l : List Instruction) : Decidable (noExpose l) :=
  List.decidableBAll (fun i => isExposeIns i = false) l

instance {ε α : Type} [DecidableEq ε] [DecidableEq α] : DecidableEq (Except ε α) :=
  fun a b =>
    match a, b with
    | Except.error e, Except.error f =>
      if h : e = f then Decidable.isTrue (by rw [h])
      else Decidable.isFalse (by simp [h])
    | Except.error _, Except.ok _ => Decidable.isFalse (by simp)
    | Except.ok _, Except.error _ => Decidable.isFalse (by simp)
    | Except.ok x, Except.ok y =>
      if h : x = y then Decidable.isTrue (by rw [h])
      else Decidable.isFalse (by simp [h])

theorem scanInstructions_append_noExpose (port : Nat) (ipre rest : List Instruction)
    (h : noExpose ipre) :
    scanInstructions port (ipre ++ rest) = scanInstructions port rest := by
  induction ipre with
  | nil => rfl
  | cons i tl ih =>
    have hi : isExposeIns i = false := h i (List.mem_cons_self i tl)
    have htl : noExpose tl := fun j hj => h j (List.mem_cons_of_mem i hj)
    cases i with
    | misc m =>
      have hm : ¬ m.instruction = "EXPOSE" := by
        simpa [isExposeIns] using hi
      simp [scanInstructions, hm, ih htl]
    | other => simpa [scanInstructions] using ih htl

theorem scanInstructions_noExpose (port : Nat) (l : List Instruction) (h : noExpose l) :
    scanInstructions port l = .ok port := by
  have h2 := scanInstructions_append_noExpose port l [] h
  rw [List.append_nil] at h2
  exact h2

theorem scanInstructions_expose (port N : Nat) (c : List Char)
    (comps : List BreakableStringComponent) (rest : List Instruction)
    (hp : parseU16 (trimChars c) = some N) :
    scanInstructions port
      (Instruction.misc ⟨"EXPOSE", BreakableStringComponent.string c :: comps⟩ :: rest) =
      .ok N := by
  simp [scanInstructions, hp]

theorem scanStages_noExpose (port : Nat) (stages : List Stage)
    (h : ∀ s ∈ stages, noExpose s.instructions) :
    scanStages port stages = .ok port := by
  induction stages with
  | nil => rfl
  | cons s tl ih =>
    have hs := scanInstructions_noExpose port s.instructions (h s (List.mem_cons_self s tl))
    have htl := ih fun j hj => h j (List.mem_cons_of_mem s hj)
    simp [scanStages, hs, htl]

theorem scanStages_append_noExpose (port : Nat) (pre rest : List Stage)
    (h : ∀ s ∈ pre, noExpose s.instructions) :
    scanStages port (pre ++ rest) = scanStages port rest := by
  induction pre with
  | nil => rfl
  | cons s tl ih =>
    have hs := scanInstructions_noExpose port s.instructions (h s (List.mem_cons_self s tl))
    have htl := ih fun j hj => h j (List.mem_cons_of_mem s hj)
    simp [scanStages, hs, htl]

theorem scanStages_cons_ok (port p : Nat) (s : Stage) (rest : List Stage)
    (h : scanInstructions port s.instructions = .ok p) :
    scanStages port (s :: rest) = scanStages p rest := by
  simp [scanStages, h]

/-- Shared helper: a document whose single reachable literal `EXPOSE`
parses to `N` makes `get_port_from_dockerfile` return the `N = 0` test's
result. -/
theorem get_port_single_expose (parse : String → Except String Dockerfile)
    (text : String) (pre post : List Stage) (idx : Nat)
    (ipre ipost : List Instruction) (c : List Char)
    (comps : List BreakableStringComponent) (N : Nat)
    (hparse : parse text = .ok ⟨pre ++
      (⟨idx, ipre ++
        Instruction.misc ⟨"EXPOSE", BreakableStringComponent.string c :: comps⟩ ::
        ipost⟩ : Stage) :: post⟩)
    (hpre : ∀ s ∈ pre, noExpose s.instructions)
    (hpost : ∀ s ∈ post, noExpose s.instructions)
    (hipre : noExpose ipre)
    (hp : parseU16 (trimChars c) = some N) :
    get_port_from_dockerfile parse text = .ok (if N = 0 then none else some N) := by
  have hstage : scanStages 0 (pre ++
      (⟨idx, ipre ++
        Instruction.misc ⟨"EXPOSE", BreakableStringComponent.string c :: comps⟩ ::
        ipost⟩ : Stage) :: post) = .ok N := by
    rw [scanStages_append_noExpose 0 pre _ hpre]
    have hins : scanInstructions 0 (ipre ++
        Instruction.misc ⟨"EXPOSE", BreakableStringComponent.string c :: comps⟩ ::
        ipost) = .ok N := by
      rw [scanInstructions_append_noExpose 0 ipre _ hipre]
      exact scanInstructions_expose 0 N c comps ipost hp
    simp [scanStages, hins, scanStages_noExpose N post hpost]
  simp [get_port_from_dockerfile, hparse, get_port_scan, hstage]

/-- C7: for every Dockerfile text whose parsed document contains exactly one
`EXPOSE` instruction, with a literal first argument parsing to a positive
port `N` (within the `u16` range that `parse::<u16>` enforces),
`get_port_from_dockerfile` returns `Some N`; and for every text whose
document contains no `EXPOSE` instruction, it returns `None`. -/
theorem expose_port_extraction :
    (∀ (parse : String → Except String Dockerfile) (text : String)
      (pre post : List Stage) (idx : Nat) (ipre ipost : List Instruction)
      (c : List Char) (comps : List BreakableStringComponent) (N : Nat),
      parse text = .ok ⟨pre ++
        (⟨idx, ipre ++
          Instruction.misc ⟨"EXPOSE", BreakableStringComponent.string c :: comps⟩ ::
          ipost⟩ : Stage) :: post⟩ →
      (∀ s ∈ pre, noExpose s.instructions) →
      (∀ s ∈ post, noExpose s.instructions) →
      noExpose ipre → noExpose ipost →
      parseU16 (trimChars c) = some N → 0 < N →
      get_port_from_dockerfile parse text = .ok (some N))
    ∧ (∀ (parse : String → Except String Dockerfile) (text : String)
      (doc : Dockerfile),
      parse text = .ok doc → (∀ s ∈ doc.stages, noExpose s.instructions) →
      get_port_from_dockerfile parse text = .ok none) := by
  constructor
  · intro parse text pre post idx ipre ipost c comps N hparse hpre hpost hipre _ hp hN
    have h := get_port_single_expose parse text pre post idx ipre ipost c comps N
      hparse hpre hpost hipre hp
    rw [if_neg (Nat.pos_iff_ne_zero.mp hN)] at h
    exact h
  · intro parse text doc hparse hno
    simp [get_port_from_dockerfile, hparse, get_port_scan,
      scanStages_noExpose 0 doc.stages hno]

/-- The single-`EXPOSE` Dockerfile text used to witness C7. -/
def c7text : String := "FROM alpine\nEXPOSE 8080\n"

/-- The document `specParse` produces for `c7text`. -/
def c7doc : Dockerfile :=
  ⟨[⟨0, [Instruction.other,
    Instruction.misc ⟨"EXPOSE", [BreakableStringComponent.string ['8', '0', '8', '0']]⟩]⟩]⟩

/-- An `EXPOSE`-free Dockerfile text used to witness C7. -/
def c7noText : String := "FROM alpine\nRUN touch x\n"

/-- Witness for C7 at `c7text` (port 8080) and `c7noText` (no port). -/
theorem expose_port_extraction_witness :
    specParse c7text = .ok c7doc ∧
    get_port_from_dockerfile specParse c7text = .ok (some 8080) ∧
    get_port_from_dockerfile specParse c7noText = .ok none :=
  ⟨by decide,
    expose_port_extraction.1 specParse c7text [] [] 0 [Instruction.other] []
      ['8', '0', '8', '0'] [] 8080 (by decide) (by decide) (by decide) (by decide)
      (by decide) (by decide) (by decide),
    expose_port_extraction.2 specParse c7noText
      ⟨[⟨0, [Instruction.other,
        Instruction.misc ⟨"RUN", [BreakableStringComponent.string
          ['t', 'o', 'u', 'c', 'h', ' ', 'x']]⟩]⟩]⟩ (by decide) (by decide)⟩

/-- The Dockerfile text whose first literal `EXPOSE` argument is `0` but
which carries a second `EXPOSE` in a later stage. -/
def c8text : String := "FROM alpine\nEXPOSE 0\nFROM alpine\nEXPOSE 9090\n"

/-- The document `specParse` produces for `c8text`: the first stage's
`EXPOSE` argument is the literal `0`. -/
def c8doc : Dockerfile :=
  ⟨[⟨0, [Instruction.other,
      Instruction.misc ⟨"EXPOSE", [BreakableStringComponent.string ['0']]⟩]⟩,
    ⟨1, [Instruction.other,
      Instruction.misc ⟨"EXPOSE", [BreakableStringComponent.string ['9', '0', '9', '0']]⟩]⟩]⟩

/-- Counterexample to C8: in `c8text` the first literal `EXPOSE` argument
parses to `0`, yet the function returns `Some 9090` (the later stage's
`EXPOSE` overwrites the port because the `break` only exits the inner
loop), not `None`. -/
theorem expose_zero_overridden_by_later_stage :
    specParse c8text = .ok c8doc ∧
    get_port_from_dockerfile specParse c8text = .ok (some 9090) ∧
    ¬ get_port_from_dockerfile specParse c8text = .ok none := by
  refine ⟨by decide, by decide, by decide⟩

/-- C8 (amended): when the document's only `EXPOSE` instruction has a
literal first argument parsing to `0`, `get_port_from_dockerfile` returns
`None` — port `0` is treated as "not found".  (The original claim over
every document whose *first* literal `EXPOSE` parses to `0` fails when a
later stage carries another `EXPOSE`, which overwrites the port.) -/
theorem expose_zero_yields_none
    (parse : String → Except String Dockerfile) (text : String)
    (pre post : List Stage) (idx : Nat) (ipre ipost : List Instruction)
    (c : List Char) (comps : List BreakableStringComponent)
    (hparse : parse text = .ok ⟨pre ++
      (⟨idx, ipre ++
        Instruction.misc ⟨"EXPOSE", BreakableStringComponent.string c :: comps⟩ ::
        ipost⟩ : Stage) :: post⟩)
    (hpre : ∀ s ∈ pre, noExpose s.instructions)
    (hpost : ∀ s ∈ post, noExpose s.instructions)
    (hipre : noExpose ipre) (_hipost : noExpose ipost)
    (hp : parseU16 (trimChars c) = some 0) :
    get_port_from_dockerfile parse text = .ok none := by
  have h := get_port_single_expose parse text pre post idx ipre ipost c comps 0
    hparse hpre hpost hipre hp
  simpa using h

/-- The Dockerfile text whose only `EXPOSE` argument is the literal `0`. -/
def c8zeroText : String := "FROM alpine\nEXPOSE 0\n"

/-- Witness for the amended C8 at `c8zeroText`. -/
theorem expose_zero_yields_none_witness :
    get_port_from_dockerfile specParse c8zeroText = .ok none :=
  expose_zero_yields_none specParse c8zeroText [] [] 0 [Instruction.other] []
    ['0'] [] (by decide) (by decide) (by decide) (by decide) (by decide) (by decide)

/-- The two-stage Dockerfile text of the C1 scenario: `EXPOSE 8080` in
stage 0 and `EXPOSE 9090` in stage 1. -/
def c1text : String := "FROM alpine\nEXPOSE 8080\nFROM alpine\nEXPOSE 9090\n"

/-- The document `specParse` produces for `c1text`. -/
def c1doc : Dockerfile :=
  ⟨[⟨0, [Instruction.other,
      Instruction.misc ⟨"EXPOSE", [BreakableStringComponent.string ['8', '0', '8', '0']]⟩]⟩,
    ⟨1, [Instruction.other,
      Instruction.misc ⟨"EXPOSE", [BreakableStringComponent.string ['9', '0', '9', '0']]⟩]⟩]⟩

/-- Counterexample to C1: on the two-stage document with `EXPOSE 8080` in
stage 0 and `EXPOSE 9090` in stage 1, port extraction returns `Some 9090`,
not `Some 8080` — the `break` exits only the inner instruction loop, so
scanning does not stop at the first literal `EXPOSE` and the later stage's
assignment overwrites the port. -/
theorem first_expose_not_returned :
    specParse c1text = .ok c1doc ∧
    ¬ get_port_from_dockerfile specParse c1text = .ok (some 8080) ∧
    get_port_from_dockerfile specParse c1text = .ok (some 9090) := by
  refine ⟨by decide, by decide, by decide⟩

/-- C1 (amended): within a stage the scan stops at that stage's first
literal `EXPOSE`, but the outer stage loop continues and a later stage's
literal `EXPOSE` overwrites the port, so for a document whose last
stage carrying a literal `EXPOSE` parses that argument to a nonzero `N`,
port extraction returns `Some N` — last-stage-wins, not
first-occurrence-wins; in particular the two-stage 8080/9090 document
yields `Some 9090`. -/
theorem last_stage_expose_wins (pre mid post : List Stage) (idx1 idx2 : Nat)
    (ipre1 ipost1 ipre2 ipost2 : List Instruction) (a b : List Char)
    (ca cb : List BreakableStringComponent) (M N : Nat)
    (hpre : ∀ s ∈ pre, noExpose s.instructions)
    (hmid : ∀ s ∈ mid, noExpose s.instructions)
    (hpost : ∀ s ∈ post, noExpose s.instructions)
    (hipre1 : noExpose ipre1) (hipre2 : noExpose ipre2)
    (hpa : parseU16 (trimChars a) = some M)
    (hpb : parseU16 (trimChars b) = some N) (hN : 0 < N) :
    get_port_scan ⟨pre ++
      (⟨idx1, ipre1 ++
        Instruction.misc ⟨"EXPOSE", BreakableStringComponent.string a :: ca⟩ ::
        ipost1⟩ : Stage) ::
      (mid ++
        (⟨idx2, ipre2 ++
          Instruction.misc ⟨"EXPOSE", BreakableStringComponent.string b :: cb⟩ ::
          ipost2⟩ : Stage) :: post)⟩ = .ok (some N) := by
  have hins1 : scanInstructions 0 (ipre1 ++
      Instruction.misc ⟨"EXPOSE", BreakableStringComponent.string a :: ca⟩ ::
      ipost1) = .ok M := by
    rw [scanInstructions_append_noExpose 0 ipre1 _ hipre1]
    exact scanInstructions_expose 0 M a ca ipost1 hpa
  have hins2 : scanInstructions M (ipre2 ++
      Instruction.misc ⟨"EXPOSE", BreakableStringComponent.string b :: cb⟩ ::
      ipost2) = .ok N := by
    rw [scanInstructions_append_noExpose M ipre2 _ hipre2]
    exact scanInstructions_expose M N b cb ipost2 hpb
  have hstage : scanStages 0 (pre ++
      (⟨idx1, ipre1 ++
        Instruction.misc ⟨"EXPOSE", BreakableStringComponent.string a :: ca⟩ ::
        ipost1⟩ : Stage) ::
      (mid ++
        (⟨idx2, ipre2 ++
          Instruction.misc ⟨"EXPOSE", BreakableStringComponent.string b :: cb⟩ ::
          ipost2⟩ : Stage) :: post)) = .ok N := by
    rw [scanStages_append_noExpose 0 pre _ hpre,
      scanStages_cons_ok 0 M _ _ hins1,
      scanStages_append_noExpose M mid _ hmid,
      scanStages_cons_ok M N _ _ hins2]
    exact scanStages_noExpose N post hpost
  simp [get_port_scan, hstage, Nat.pos_iff_ne_zero.mp hN]

/-- Witness for the amended C1: the concrete two-stage document yields
`Some 9090`. -/
theorem last_stage_expose_wins_witness :
    get_port_scan c1doc = .ok (some 9090) := by
  have h := last_stage_expose_wins [] [] [] 0 1 [Instruction.other] []
    [Instruction.other] [] ['8', '0', '8', '0'] ['9', '0', '9', '0'] [] []
    8080 9090 (by decide) (by decide) (by decide) (by decide) (by decide)
    (by decide) (by decide) (by decide)
  simpa [c1doc] using h

/-- A Dockerfile text with malformed instruction syntax (`EXP@SE` is not a
valid instruction keyword). -/
def c6text : String := "FROM alpine\nEXP@SE 80\n"

/-- Counterexample to C6: on malformed instruction syntax the parser's
typed error is `unwrap`ped by `get_port_from_dockerfile` (src/lib.rs:60),
so the operation aborts (panics) instead of returning the `ParseError` to
the caller. -/
theorem malformed_dockerfile_panics :
    specParse c6text = .error "malformed instruction" ∧
    (get_port_from_dockerfile specParse c6text).isPanic = true := by
  refine ⟨by decide, by decide⟩

/-- C6 (amended): the external parser does fail with a typed error on
malformed instruction syntax, but the repository's only call site
`unwrap`s it, so for every text on which the parser reports an error,
`get_port_from_dockerfile` panics (process abort) rather than returning
the error to the caller. -/
theorem parse_error_unwrap_panics (parse : String → Except String Dockerfile)
    (text : String) (e : String) (h : parse text = .error e) :
    (get_port_from_dockerfile parse text).isPanic = true := by
  simp [get_port_from_dockerfile, h, PanicOr.isPanic]

/-- A Dockerfile text whose instruction precedes any `FROM`, a parse
error. -/
def c6text2 : String := "EXPOSE 80"

/-- Witness for the amended C6 at `c6text2`. -/
theorem parse_error_unwrap_panics_witness :
    (get_port_from_dockerfile specParse c6text2).isPanic = true :=
  parse_error_unwrap_panics specParse c6text2 "instruction before first FROM"
    (by decide)

/-- True when the scan of one stage's instruction list reaches an `EXPOSE`
instruction with an empty argument-component list: such an instruction is
reached unless an earlier `EXPOSE` with a literal first argument `break`s
the stage's loop first. -/
def reachesEmptyExpose : List Instruction → Bool
  | [] => false
  | Instruction.misc m :: rest =>
    if m.instruction = "EXPOSE" then
      match m.components.head? with
      | none => true
      | some (BreakableStringComponent.string _) => false
      | some BreakableStringComponent.varSub => reachesEmptyExpose rest
    else reachesEmptyExpose rest
  | Instruction.other :: rest => reachesEmptyExpose rest

theorem scanInstructions_reachesEmptyExpose (l : List Instruction) (port : Nat)
    (h : reachesEmptyExpose l = true) :
    (scanInstructions port l).isPanic = true := by
  induction l generalizing port with
  | nil => simp [reachesEmptyExpose] at h
  | cons i rest ih =>
    cases i with
    | misc m =>
      by_cases hm : m.instruction = "EXPOSE"
      · match hc : m.components.head? with
        | none => simp [scanInstructions, hm, hc, PanicOr.isPanic]
        | some (BreakableStringComponent.string c) =>
          rw [reachesEmptyExpose, if_pos hm, hc] at h
          exact absurd h (by simp)
        | some BreakableStringComponent.varSub =>
          rw [reachesEmptyExpose, if_pos hm, hc] at h
          simpa [scanInstructions, hm, hc] using ih port h
      · rw [reachesEmptyExpose, if_neg hm] at h
        simpa [scanInstructions, hm] using ih port h
    | other =>
      rw [reachesEmptyExpose] at h
      simpa [scanInstructions] using ih port h

theorem scanStages_reachesEmptyExpose (stages : List Stage) (port : Nat)
    (h : stages.any (fun s => reachesEmptyExpose s.instructions) = true) :
    (scanStages port stages).isPanic = true := by
  induction stages generalizing port with
  | nil => simp at h
  | cons s rest ih =>
    match hs : scanInstructions port s.instructions with
    | .panic => simp [scanStages, hs, PanicOr.isPanic]
    | .ok p =>
      have hsr : reachesEmptyExpose s.instructions = false := by
        by_contra hcon
        have := scanInstructions_reachesEmptyExpose s.instructions port
          (by revert hcon; cases reachesEmptyExpose s.instructions <;> simp)
        rw [hs] at this
        simp [PanicOr.isPanic] at this
      rw [List.any_cons, hsr, Bool.false_or] at h
      simpa [scanStages, hs] using ih p h

/-- C10 (amended): for every document in which some stage's instruction
scan reaches a `Misc` `EXPOSE` with an empty argument-component list — that
is, an empty-argument `EXPOSE` not preceded in its own stage by a
literal-argument `EXPOSE` that `break`s the inner loop — port extraction
panics on the unguarded `get(0).unwrap()` instead of skipping the
instruction or returning `None`.  (The original universally quantified
claim fails for documents where a literal `EXPOSE` earlier in the same
stage shields the empty one.) -/
theorem reached_empty_expose_panics (doc : Dockerfile)
    (h : doc.stages.any (fun s => reachesEmptyExpose s.instructions) = true) :
    (get_port_scan doc).isPanic = true := by
  have hs := scanStages_reachesEmptyExpose doc.stages 0 h
  match hm : scanStages 0 doc.stages with
  | .panic => simp [get_port_scan, hm, PanicOr.isPanic]
  | .ok p => rw [hm] at hs; simp [PanicOr.isPanic] at hs

/-- A document whose only instruction is an `EXPOSE` with no arguments. -/
def c10doc : Dockerfile := ⟨[⟨0, [Instruction.misc ⟨"EXPOSE", []⟩]⟩]⟩

/-- Witness for the amended C10 at `c10doc`. -/
theorem reached_empty_expose_panics_witness :
    (get_port_scan c10doc).isPanic = true :=
  reached_empty_expose_panics c10doc (by decide)

/-- True on a `Misc` `EXPOSE` instruction with an empty
argument-component list. -/
def isEmptyExpose : Instruction → Bool
  | Instruction.misc m => m.instruction == "EXPOSE" && m.components.isEmpty
  | Instruction.other => false

/-- A document containing an empty-argument `EXPOSE` that is preceded, in
the same stage, by a literal `EXPOSE 80`. -/
def c10doc2 : Dockerfile :=
  ⟨[⟨0, [Instruction.misc ⟨"EXPOSE", [BreakableStringComponent.string ['8', '0']]⟩,
    Instruction.misc ⟨"EXPOSE", []⟩]⟩]⟩

/-- Counterexample to C10 as universally stated: `c10doc2` contains a
`Misc` `EXPOSE` with an empty component list, yet port extraction does not
panic — the earlier literal `EXPOSE 80` `break`s the stage's loop first
and the function returns `Some 80`. -/
theorem shadowed_empty_expose_no_panic :
    c10doc2.stages.any (fun s => s.instructions.any isEmptyExpose) = true ∧
    (get_port_scan c10doc2).isPanic = false ∧
    get_port_scan c10doc2 = .ok (some 80) := by
  refine ⟨by decide, by decide, by decide⟩

theorem splitOnChar_no_sep (sep : Char) (l : List Char)
    (h : ∀ c ∈ l, c ≠ sep) : splitOnChar sep l = [l] := by
  induction l with
  | nil => rfl
  | cons c rest ih =>
    have hc : c ≠ sep := h c (List.mem_cons_self c rest)
    have hrest := ih fun d hd => h d (List.mem_cons_of_mem c hd)
    simp [splitOnChar, hc, hrest]

theorem splitOnChar_append_sep (sep : Char) (u rest : List Char)
    (h : ∀ c ∈ u, c ≠ sep) :
    splitOnChar sep (u ++ sep :: rest) = u :: splitOnChar sep rest := by
  induction u with
  | nil => simp [splitOnChar]
  | cons c tl ih =>
    have hc : c ≠ sep := h c (List.mem_cons_self c tl)
    have htl := ih fun d hd => h d (List.mem_cons_of_mem c hd)
    simp [splitOnChar, hc, htl]

/-- C2 (amended): `get_credential` splits the decoded payload on *every*
colon and returns the first two pieces, so the username is the text before
the first colon and the password is the text between the first and second
colons — when the password itself contains a colon it is truncated there
rather than returned in full; only a colon-free remainder is returned
whole. -/
theorem credential_split_segments (u p r : List Char)
    (hu : ∀ c ∈ u, c ≠ ':') (hp : ∀ c ∈ p, c ≠ ':') :
    get_credential (u ++ ':' :: (p ++ ':' :: r)) = .ok (u, p) ∧
    get_credential (u ++ ':' :: p) = .ok (u, p) := by
  constructor
  · rw [get_credential, splitOnChar_append_sep ':' u _ hu,
      splitOnChar_append_sep ':' p r hp]
  · rw [get_credential, splitOnChar_append_sep ':' u p hu,
      splitOnChar_no_sep ':' p hp]

/-- Witness for C2 at the payload `user:pa:ss`: the password is truncated
to `pa`. -/
theorem credential_split_segments_witness :
    get_credential (['u', 's', 'e', 'r'] ++ ':' :: (['p', 'a'] ++ ':' :: ['s', 's'])) =
      .ok (['u', 's', 'e', 'r'], ['p', 'a']) :=
  (credential_split_segments ['u', 's', 'e', 'r'] ['p', 'a'] ['s', 's']
    (by decide) (by decide)).1

/-- Counterexample to C2: for a payload decoding to `user:pa:ss` the code
does not return the full password `pa:ss`; it returns `(user, pa)`,
because `split(':')` cuts at every colon and only `parts[1]` is kept. -/
theorem credential_colon_password_truncated :
    ¬ get_credential ("user:pa:ss".toList) =
      .ok ("user".toList, "pa:ss".toList) := by
  decide

/-- C4 (amended): for every decoded payload containing no colon,
`get_credential` panics — the `split(':')` result has a single piece and
the `parts[1]` index is out of bounds — rather than returning a typed
`CredentialError` to the caller.  (Missing or undecodable tokens likewise
abort through the `unwrap`s on the external AWS and base64 calls.) -/
theorem credential_no_colon_panics (payload : List Char)
    (h : ∀ c ∈ payload, c ≠ ':') :
    (get_credential payload).isPanic = true := by
  rw [get_credential, splitOnChar_no_sep ':' payload h]
  rfl

/-- Witness for the amended C4 at the colon-free payload `awstoken`. -/
theorem credential_no_colon_panics_witness :
    (get_credential ("awstoken".toList)).isPanic = true :=
  credential_no_colon_panics ("awstoken".toList) (by decide)

/-- Counterexample to C4: at the concrete colon-free payload `userpass`
the fetch panics instead of failing with a typed error. -/
theorem credential_no_colon_panic_example :
    (get_credential ("userpass".toList)).isPanic = true := by
  decide

theorem build_image_events_takeWhile (s : List (Except String BuildInfo)) :
    build_image_events s = (s.takeWhile isKit).filterMap kitInner := by
  induction s with
  | nil => rfl
  | cons e rest ih =>
    cases e with
    | error msg => rfl
    | ok info =>
      obtain ⟨st, er, ax⟩ := info
      match ax with
      | none => rfl
      | some BuildInfoAux.other => rfl
      | some (BuildInfoAux.buildKit inner) =>
        simp [build_image_events, List.takeWhile_cons, isKit, kitInner, ih]

/-- C3 (amended): `build_image` surfaces only BuildKit `AuxInfo` events,
and only those forming the longest matching prefix of the daemon's stream:
the `while let` loop stops — consuming and dropping that item — at the
first event that is an error, a plain log line, or any non-BuildKit item,
so `AuxInfo` events arriving after such an event are never surfaced and
the stream is not iterated to exhaustion. -/
theorem build_events_matching_prefix (gz : List Nat → List Nat)
    (daemon : BuildImageOptions → List Nat → List (Except String BuildInfo))
    (id : String) (dockerfile_content : List Nat) :
    build_image gz daemon id dockerfile_content =
      ((daemon (build_options id) (compress gz dockerfile_content)).takeWhile
        isKit).filterMap kitInner := by
  rw [build_image, build_image_events_takeWhile]

/-- A daemon stream carrying a plain log line followed by a BuildKit
`AuxInfo` event. -/
def c3stream : List (Except String BuildInfo) :=
  [Except.ok ⟨some "step 1/2", none, none⟩,
    Except.ok ⟨none, none, some (BuildInfoAux.buildKit "done")⟩]

/-- Counterexample to C3: the stream `c3stream` contains a BuildKit
`AuxInfo` event, yet `build_image` surfaces nothing — the plain log-line
event before it terminates the `while let` loop, so consumption does not
continue past it and the stream is not iterated until exhaustion. -/
theorem aux_event_after_log_dropped :
    c3stream.filterMap kitInner = ["done"] ∧
    build_image (fun l => l) (fun _ _ => c3stream) "tag" [] = [] := by
  refine ⟨by decide, by decide⟩

theorem padOctal_length (w n : Nat) : (padOctal w n).length = w := by
  induction w with
  | zero => rfl
  | succ w ih => simp [padOctal, ih]

theorem foldl_padOctal (w : Nat) (n : Nat) : ∀ a : Nat,
    (padOctal w n).foldl (fun acc d => acc * 8 + (d - 48)) a =
      a * 8 ^ w + n % 8 ^ w := by
  induction w with
  | zero => intro a; simp [padOctal, Nat.mod_one]
  | succ w ih =>
    intro a
    rw [padOctal, List.foldl_cons, ih]
    have hd : n / 8 ^ w % 8 + 48 - 48 = n / 8 ^ w % 8 := by omega
    rw [hd]
    have key : n / 8 ^ w % 8 * 8 ^ w + n % 8 ^ w = n % 8 ^ (w + 1) := by
      have h1 : n / 8 ^ w % 8 = n % (8 ^ w * 8) / 8 ^ w :=
        (Nat.mod_mul_right_div_self n (8 ^ w) 8).symm
      have h2 : n % 8 ^ w = n % (8 ^ w * 8) % 8 ^ w :=
        (Nat.mod_mod_of_dvd n ⟨8, rfl⟩).symm
      have h3 := Nat.div_add_mod (n % (8 ^ w * 8)) (8 ^ w)
      rw [h1, h2, Nat.pow_succ]
      calc n % (8 ^ w * 8) / 8 ^ w * 8 ^ w + n % (8 ^ w * 8) % 8 ^ w
          = 8 ^ w * (n % (8 ^ w * 8) / 8 ^ w) + n % (8 ^ w * 8) % 8 ^ w := by
            rw [Nat.mul_comm]
        _ = n % (8 ^ w * 8) := h3
    calc (a * 8 + n / 8 ^ w % 8) * 8 ^ w + n % 8 ^ w
        = a * (8 ^ w * 8) + (n / 8 ^ w % 8 * 8 ^ w + n % 8 ^ w) := by ring
      _ = a * 8 ^ (w + 1) + n % 8 ^ (w + 1) := by rw [key, Nat.pow_succ]

theorem sizeField_length (n : Nat) : (sizeField n).length = 12 := by
  simp [sizeField, padOctal_length]

theorem cksumField_length (n : Nat) : (cksumField n).length = 8 := by
  simp [cksumField, padOctal_length]

theorem tarHeader_length (n : Nat) : (tarHeader n).length = 512 := by
  have h1 : pre124.length = 124 := by decide
  have h2 : mtimeField.length = 12 := by decide
  have h3 : headerPost.length = 356 := by decide
  simp [tarHeader, h1, h2, h3, sizeField_length, cksumField_length]

theorem tarHeader_not_zero (n : Nat) :
    (tarHeader n).all (fun b => b == 0) = false := by
  have h : pre124.all (fun b => b == 0) = false := by decide
  simp [tarHeader, List.all_append, h]

theorem tarHeader_name (n : Nat) :
    ((tarHeader n).take 100).takeWhile (fun b => b != 0) = dockerfileName := by
  have h1 : (tarHeader n).take 100 = pre124.take 100 := by
    rw [tarHeader]
    exact List.take_append_of_le_length (by decide)
  rw [h1]
  decide

theorem tarHeader_size (n : Nat) (h : n < 8 ^ 11) :
    parseOctalField ((tarHeader n).drop 124) = n := by
  have h1 : (tarHeader n).drop 124 =
      sizeField n ++ (mtimeField ++ (cksumField n ++ headerPost)) := by
    rw [tarHeader]
    exact List.drop_left' (by decide)
  rw [h1, parseOctalField]
  have h2 : (sizeField n ++ (mtimeField ++ (cksumField n ++ headerPost))).take 11 =
      padOctal 11 n := by
    rw [sizeField, List.append_assoc]
    exact List.take_left' (padOctal_length 11 n)
  rw [h2, foldl_padOctal, Nat.mod_eq_of_lt h]
  simp

theorem tarArchive_take (t : List Nat) :
    (tarArchive t).take 512 = tarHeader t.length := by
  rw [tarArchive]
  exact List.take_left' (tarHeader_length t.length)

theorem tarArchive_drop (t : List Nat) :
    (tarArchive t).drop 512 =
      t ++ (List.replicate (padLen t.length) 0 ++ List.replicate 1024 0) := by
  rw [tarArchive]
  exact List.drop_left' (tarHeader_length t.length)

theorem tarArchive_length (t : List Nat) :
    (tarArchive t).length = 512 + (t.length + (padLen t.length + 1024)) := by
  simp [tarArchive, tarHeader_length]

theorem readEntriesFuel_end_blocks (f : Nat) :
    readEntriesFuel (f + 1) (List.replicate 1024 0) = some [] := by
  rfl

theorem readEntriesFuel_tarArchive (t : List Nat) (f : Nat)
    (h : t.length < 8 ^ 11) :
    readEntriesFuel (f + 2) (tarArchive t) =
      some [⟨dockerfileName, t.length, t⟩] := by
  have hlen : ¬ (tarArchive t).length < 512 := by
    rw [tarArchive_length]; omega
  have hall : ((tarArchive t).take 512).all (fun b => b == 0) = false := by
    rw [tarArchive_take]; exact tarHeader_not_zero t.length
  have hname : (((tarArchive t).take 512).take 100).takeWhile (fun b => b != 0) =
      dockerfileName := by
    rw [tarArchive_take]; exact tarHeader_name t.length
  have hsize : parseOctalField (((tarArchive t).take 512).drop 124) = t.length := by
    rw [tarArchive_take]; exact tarHeader_size t.length h
  have hrlen : ¬ ((tarArchive t).drop 512).length < t.length := by
    rw [tarArchive_drop]; simp
  have hcontent : ((tarArchive t).drop 512).take t.length = t := by
    rw [tarArchive_drop]; exact List.take_left t _
  have hrest2 : ((tarArchive t).drop 512).drop
      (t.length + (512 - t.length % 512) % 512) = List.replicate 1024 0 := by
    rw [tarArchive_drop, ← List.append_assoc]
    refine List.drop_left' ?_
    simp [padLen]
  show readEntriesFuel (f + 1 + 1) (tarArchive t) = _
  rw [readEntriesFuel]
  simp only [hlen, if_false, hall, hname, hsize, hrlen, hcontent, hrest2,
    readEntriesFuel_end_blocks f, Bool.false_eq_true]

/-- C5: `build_context` round-trips — for every input text (as its byte
sequence, of length within the 11-digit octal range of the tar size
field) and every gzip codec pair whose decode inverts its encode,
gzip-decompressing the bytes returned by `compress` yields an archive with
exactly one entry, named `Dockerfile`, whose content bytes are identical
to the text and whose header size field equals the exact byte length of
the text. -/
theorem compress_roundtrip (gz gunzip : List Nat → List Nat) (t : List Nat)
    (hinv : ∀ b, gunzip (gz b) = b) (hlen : t.length < 8 ^ 11) :
    readEntries (gunzip (compress gz t)) = some [⟨dockerfileName, t.length, t⟩] := by
  rw [compress, hinv, readEntries]
  have h2 : (tarArchive t).length = (tarArchive t).length - 2 + 2 := by
    rw [tarArchive_length]; omega
  rw [h2]
  exact readEntriesFuel_tarArchive t _ hlen

/-- The four bytes `FROM` used as the concrete text of the C5 witness. -/
def c5text : List Nat := [70, 82, 79, 77]

/-- Witness for C5 at `c5text` with the identity gzip codec. -/
theorem compress_roundtrip_witness :
    readEntries (compress (fun l => l) c5text) =
      some [⟨dockerfileName, 4, c5text⟩] :=
  compress_roundtrip (fun l => l) (fun l => l) c5text (fun b => rfl) (by decide)

/-- The modification-time field of an uncompressed archive: bytes 136-147
of its first header block. -/
def mtimeBytes (archive : List Nat) : List Nat := (archive.drop 136).take 12

theorem tarArchive_mtime (t : List Nat) :
    mtimeBytes (tarArchive t) = List.replicate 12 0 := by
  rw [mtimeBytes, tarArchive, tarHeader, List.append_assoc, List.append_assoc]
  rw [show (136 : Nat) = pre124.length + 12 from by decide, List.drop_append]
  rw [List.drop_left' (sizeField_length t.length)]
  rw [List.append_assoc, List.take_left' (by decide : mtimeField.length = 12)]
  rfl

/-- C9: with the entry's modification-time field fixed — the blank GNU
header pins it to twelve zero bytes, independent of the input and of any
clock — `build_context` is deterministic: two calls on identical text
produce byte-identical compressed output (the embedded `compress` is a
pure function of the text alone, so this holds across invocations and
across time for any deterministic gzip encoder). -/
theorem compress_deterministic (gz : List Nat → List Nat) (t1 t2 : List Nat)
    (h : t1 = t2) :
    compress gz t1 = compress gz t2 ∧
    mtimeBytes (tarArchive t1) = List.replicate 12 0 := by
  refine ⟨by rw [h], tarArchive_mtime t1⟩

/-- Witness for C9 at the one-byte text `[70]` with the identity codec. -/
theorem compress_deterministic_witness :
    compress (fun l => l) [70] = compress (fun l => l) [70] ∧
    mtimeBytes (tarArchive [70]) = List.replicate 12 0 :=
  compress_deterministic (fun l => l) [70] [70] rfl
